import Mathlib

/-!
# Verification of the downshift-docs dropdown interaction engine

This file embeds, in Lean 4, the state-machine logic documented by the
downshift documentation repository: the single-select transition engine,
the controlled-state merger, the override hook (state reducer) pipeline,
the multi-selection coordinator, and the concrete consumer reducers and
item filters that appear verbatim in the documentation pages
(`docs/hooks/useSelect.mdx`, the `useCombobox` page, and the
`useMultipleSelection` page).

The engine itself (the `useSelect` / `useCombobox` / `useMultipleSelection`
hooks) is not part of this repository: the repository consists of the
documentation that describes it and the example code that consumes it.
Definitions of the engine below are therefore modelled from the
specification's own words, and are marked as such in their doc comments.
The example reducers and filters, by contrast, are translated directly
from the JavaScript code embedded in the documentation pages.
-/

/-- A requested side effect, as described in the spec's output contract:
`ScrollIntoView(index)`, `FocusElement(role)`, `Announce(text)`. The engine
never executes these; it only emits them. -/
inductive Eff where
  | scrollIntoView (index : Int)
  | focusElement (role : String)
  | announce (text : String)
deriving DecidableEq, Repr

/-- The `InteractionState` of a single dropdown widget instance:
menu visibility, highlighted index (with `-1` as the "none" sentinel),
the currently selected item, and the combobox text query. -/
structure DState (α : Type) where
  isOpen : Bool
  highlightedIndex : Int
  selectedItem : Option α
  inputValue : String
deriving DecidableEq, Repr

/-- The event vocabulary of the single-select transition engine (the
enumerable tagged variants of the spec's input contract). -/
inductive Evt where
  | arrowDown
  | arrowUp
  | homeKey
  | endKey
  | enter
  | itemClick (index : Nat)
  | escape
  | blur
  | outsideClick
  | toggleOpen
deriving DecidableEq, Repr

/-- Modelled from the spec: the next highlighted index for ArrowDown while
the menu is open, for a non-empty list of `n` items. Missing from `src/`
(the Transition Engine lives in the downshift library, not in this docs
repository). Moving past the last item wraps to the first; a stale index
past the end also wraps to the first. -/
def nextDownIdx (n : Nat) (hi : Int) : Int :=
  if hi < 0 then 0
  else if (n : Int) - 1 ≤ hi then 0
  else hi + 1

/-- Modelled from the spec: the next highlighted index for ArrowUp while
the menu is open, for a non-empty list of `n` items. Missing from `src/`.
Moving before the first item wraps to the last; a stale index past the end
is clamped to the last. -/
def nextUpIdx (n : Nat) (hi : Int) : Int :=
  if hi ≤ 0 then (n : Int) - 1
  else if (n : Int) ≤ hi then (n : Int) - 1
  else hi - 1

/-- Modelled from the spec: the Transition Engine of the single-select
specialization, `transition(state, event) -> (proposedState, sideEffects)`.
The engine implementation is missing from `src/` (this repository only
documents it), so this definition follows the spec's §4.1 transition table
with the conventional defaults: ArrowDown/ArrowUp while closed open the
menu at the first/last index; while open they move by ±1 with circular
wrap; Home/End jump to first/last; Enter/ItemClick on a valid item select
it, close the menu and reset the highlight; Escape/Blur/OutsideClick close
the menu; events referencing an out-of-range index are no-ops with no side
effects; scroll side effects are emitted only when the highlight changes,
and an announcement is emitted on selection. -/
def transition (items : List α) (toStr : α → String) (s : DState α) (e : Evt) :
    DState α × List Eff :=
  let n := items.length
  match e with
  | .arrowDown =>
    if s.isOpen then
      if n = 0 then (s, [])
      else
        let h2 := nextDownIdx n s.highlightedIndex
        ({ s with highlightedIndex := h2 },
          if h2 = s.highlightedIndex then [] else [Eff.scrollIntoView h2])
    else
      if n = 0 then ({ s with isOpen := true, highlightedIndex := -1 }, [])
      else ({ s with isOpen := true, highlightedIndex := 0 }, [Eff.scrollIntoView 0])
  | .arrowUp =>
    if s.isOpen then
      if n = 0 then (s, [])
      else
        let h2 := nextUpIdx n s.highlightedIndex
        ({ s with highlightedIndex := h2 },
          if h2 = s.highlightedIndex then [] else [Eff.scrollIntoView h2])
    else
      if n = 0 then ({ s with isOpen := true, highlightedIndex := -1 }, [])
      else
        ({ s with isOpen := true, highlightedIndex := (n : Int) - 1 },
          [Eff.scrollIntoView ((n : Int) - 1)])
  | .homeKey =>
    if s.isOpen then
      if n = 0 then (s, [])
      else
        ({ s with highlightedIndex := 0 },
          if (0 : Int) = s.highlightedIndex then [] else [Eff.scrollIntoView 0])
    else (s, [])
  | .endKey =>
    if s.isOpen then
      if n = 0 then (s, [])
      else
        ({ s with highlightedIndex := (n : Int) - 1 },
          if (n : Int) - 1 = s.highlightedIndex then []
          else [Eff.scrollIntoView ((n : Int) - 1)])
    else (s, [])
  | .enter =>
    if s.isOpen then
      if s.highlightedIndex < 0 then (s, [])
      else
        match items[s.highlightedIndex.toNat]? with
        | some it =>
          ({ s with selectedItem := some it, isOpen := false, highlightedIndex := -1 },
            [Eff.announce (toStr it ++ " has been selected")])
        | none => (s, [])
    else (s, [])
  | .itemClick index =>
    if s.isOpen then
      match items[index]? with
      | some it =>
        ({ s with selectedItem := some it, isOpen := false, highlightedIndex := -1 },
          [Eff.announce (toStr it ++ " has been selected")])
      | none => (s, [])
    else (s, [])
  | .escape =>
    if s.isOpen then ({ s with isOpen := false, highlightedIndex := -1 }, [])
    else (s, [])
  | .blur =>
    if s.isOpen then ({ s with isOpen := false, highlightedIndex := -1 }, [])
    else (s, [])
  | .outsideClick =>
    if s.isOpen then ({ s with isOpen := false, highlightedIndex := -1 }, [])
    else (s, [])
  | .toggleOpen =>
    if s.isOpen then ({ s with isOpen := false, highlightedIndex := -1 }, [])
    else ({ s with isOpen := true, highlightedIndex := -1 }, [])

/-- The trace of highlighted indices produced by delivering a number of
consecutive ArrowDown events, recording `highlightedIndex` after each one. -/
def arrowDownTrace (items : List α) (toStr : α → String) (s : DState α) : Nat → List Int
  | 0 => []
  | Nat.succ k =>
    let s2 := (transition items toStr s .arrowDown).1
    s2.highlightedIndex :: arrowDownTrace items toStr s2 k

lemma transition_arrowDown_open (items : List α) (toStr : α → String) (s : DState α)
    (hOpen : s.isOpen = true) (hn : items.length ≠ 0) :
    (transition items toStr s .arrowDown).1 =
      { s with highlightedIndex := nextDownIdx items.length s.highlightedIndex } := by
  simp [transition, hOpen, hn]

lemma nextDownIdx_mid (n i : Nat) (h : i + 1 < n) :
    nextDownIdx n (i : Int) = (i : Int) + 1 := by
  unfold nextDownIdx
  split
  · omega
  · split
    · omega
    · rfl

lemma nextDownIdx_last (n i : Nat) (h : i + 1 = n) :
    nextDownIdx n (i : Int) = 0 := by
  unfold nextDownIdx
  split
  · rfl
  · split
    · rfl
    · omega

lemma nextDownIdx_none (n : Nat) (hi : Int) (h : hi < 0) : nextDownIdx n hi = 0 := by
  unfold nextDownIdx
  split
  · rfl
  · omega

lemma arrowDownTrace_succ (items : List α) (toStr : α → String) (s : DState α) (k : Nat) :
    arrowDownTrace items toStr s (k + 1) =
      (transition items toStr s .arrowDown).1.highlightedIndex ::
        arrowDownTrace items toStr (transition items toStr s .arrowDown).1 k := rfl

lemma arrowDownTrace_formula (items : List α) (toStr : α → String) :
    ∀ (m i : Nat) (s : DState α), s.isOpen = true → s.highlightedIndex = (i : Int) →
      i + (m + 1) = items.length →
      arrowDownTrace items toStr s (m + 1) =
        ((List.range' (i + 1) m).map (fun t => (t : Int))) ++ [0] := by
  intro m
  induction m with
  | zero =>
    intro i s hOpen hHi hLen
    have hstate := transition_arrowDown_open items toStr s hOpen (by omega)
    have hidx : nextDownIdx items.length s.highlightedIndex = 0 := by
      rw [hHi]; exact nextDownIdx_last _ _ (by omega)
    rw [arrowDownTrace_succ, hstate, hidx]
    simp [arrowDownTrace]
  | succ m ih =>
    intro i s hOpen hHi hLen
    have hstate := transition_arrowDown_open items toStr s hOpen (by omega)
    have hidx : nextDownIdx items.length s.highlightedIndex = (i : Int) + 1 := by
      rw [hHi]; exact nextDownIdx_mid _ _ (by omega)
    have hcast : (i : Int) + 1 = ((i + 1 : Nat) : Int) := by push_cast; ring
    have ihs := ih (i + 1) { s with highlightedIndex := (i : Int) + 1 }
      (by simpa using hOpen) (by exact hcast) (by omega)
    rw [arrowDownTrace_succ, hstate, hidx, ihs, List.range'_succ]
    simp only [List.map_cons, List.cons_append]
    norm_cast

/-- Claim C1: for every non-empty item list of length `n`, delivering `n + 1`
consecutive ArrowDown events to the open-menu transition function, starting
from `highlightedIndex = -1`, produces the highlight sequence
`[0, 1, ..., n-1, 0]` (moving past the last index wraps to the first), and
symmetrically an ArrowUp at the first index wraps to the last. -/
theorem arrowDown_circular_wrap (items : List α) (toStr : α → String) (s : DState α)
    (hne : items ≠ []) (hOpen : s.isOpen = true) (hHi : s.highlightedIndex = -1) :
    arrowDownTrace items toStr s (items.length + 1) =
      ((List.range items.length).map (fun i => (i : Int))) ++ [0] ∧
    ∀ s2 : DState α, s2.isOpen = true → s2.highlightedIndex = 0 →
      (transition items toStr s2 .arrowUp).1.highlightedIndex = (items.length : Int) - 1 := by
  have hn : items.length ≠ 0 := by simpa using hne
  constructor
  · obtain ⟨n, hlen⟩ : ∃ n, items.length = n + 1 :=
      ⟨items.length - 1, by omega⟩
    have hstate := transition_arrowDown_open items toStr s hOpen hn
    have hidx : nextDownIdx items.length s.highlightedIndex = 0 := by
      rw [hHi]; exact nextDownIdx_none _ _ (by omega)
    have hrest := arrowDownTrace_formula items toStr n 0
      { s with highlightedIndex := 0 } (by simpa using hOpen) (by simp) (by omega)
    rw [show items.length + 1 = n + 1 + 1 from by omega, arrowDownTrace_succ, hstate, hidx,
      hrest, hlen, List.range_eq_range', List.range'_succ]
    simp
  · intro s2 hOpen2 hHi2
    have : nextUpIdx items.length s2.highlightedIndex = (items.length : Int) - 1 := by
      rw [hHi2]; unfold nextUpIdx; simp
    simp [transition, hOpen2, hn, this]

/-- Witness for C1 at a concrete three-item list: four ArrowDown events from
`highlightedIndex = -1` produce `[0, 1, 2, 0]`, and ArrowUp at index 0 wraps
to index 2. -/
theorem arrowDown_circular_wrap_witness :
    arrowDownTrace [10, 20, 30] (fun _ => "") ⟨true, -1, none, ""⟩ 4 = [0, 1, 2, 0] ∧
    (transition [10, 20, 30] (fun _ => "") ⟨true, 0, none, ""⟩ .arrowUp).1.highlightedIndex
      = 2 := by
  have h := arrowDown_circular_wrap [10, 20, 30] (fun _ => "")
    ⟨true, -1, none, ""⟩ (by decide) rfl rfl
  refine ⟨?_, ?_⟩
  · have h1 := h.1
    simpa using h1
  · have h2 := h.2 ⟨true, 0, none, ""⟩ rfl rfl
    simpa using h2

/-- Claim C3: for every non-empty item list, an ArrowUp event delivered while
the menu is closed and nothing is selected (`highlightedIndex = -1`) opens the
menu and sets `highlightedIndex` to `itemCount - 1`, the last item. -/
theorem arrowUp_closed_opens_at_last (items : List α) (toStr : α → String) (s : DState α)
    (hne : items ≠ []) (hClosed : s.isOpen = false) (_hSel : s.selectedItem = none)
    (_hHi : s.highlightedIndex = -1) :
    (transition items toStr s .arrowUp).1.isOpen = true ∧
    (transition items toStr s .arrowUp).1.highlightedIndex = (items.length : Int) - 1 := by
  have hn : items.length ≠ 0 := by simpa using hne
  simp [transition, hClosed, hn]

/-- Witness for C3 at a concrete five-item list: ArrowUp from a closed,
unselected state opens the menu highlighting index 4. -/
theorem arrowUp_closed_opens_at_last_witness :
    (transition [1, 2, 3, 4, 5] (fun _ => "") ⟨false, -1, none, ""⟩ .arrowUp).1.isOpen
        = true ∧
    (transition [1, 2, 3, 4, 5] (fun _ => "") ⟨false, -1, none, ""⟩ .arrowUp).1.highlightedIndex
        = 4 := by
  have h := arrowUp_closed_opens_at_last [1, 2, 3, 4, 5] (fun _ => "")
    ⟨false, -1, none, ""⟩ (by decide) rfl rfl rfl
  exact ⟨h.1, by rw [h.2]; decide⟩

/-- Claim C5: an ItemClick event whose index is out of range for the current
item list is a no-op: the transition returns the state unchanged and an empty
side-effect list, never an error. -/
theorem itemClick_out_of_range_noop (items : List α) (toStr : α → String) (s : DState α)
    (index : Nat) (h : items.length ≤ index) :
    transition items toStr s (.itemClick index) = (s, []) := by
  have hnone : items[index]? = none := by
    rw [List.getElem?_eq_none_iff]
    exact h
  cases hOpen : s.isOpen <;> simp [transition, hOpen, hnone]

/-- Witness for C5: clicking item 999 on a five-item list leaves the concrete
state untouched and produces no side effects. -/
theorem itemClick_out_of_range_noop_witness :
    transition [1, 2, 3, 4, 5] (fun _ => "") ⟨true, 2, some 3, ""⟩ (.itemClick 999)
      = (⟨true, 2, some 3, ""⟩, []) := by
  exact itemClick_out_of_range_noop [1, 2, 3, 4, 5] (fun _ => "")
    ⟨true, 2, some 3, ""⟩ 999 (by decide)

/-- Counterexample to claim C7 as stated: the no-op policy (§4.1) wins over
clamping. On a one-item list, a state carrying a stale `highlightedIndex = 5`
(left over from a longer list before external filtering shrank it) together
with an out-of-range ItemClick is a no-op, so the transition returns
`highlightedIndex = 5`, which lies outside `[-1, itemCount - 1] = [-1, 0]`. -/
theorem highlightedIndex_range_counterexample :
    (transition [0] (fun _ => "") ⟨true, 5, none, ""⟩ (.itemClick 9)).1.highlightedIndex = 5 ∧
    ¬((transition [0] (fun _ => "") ⟨true, 5, none, ""⟩
        (.itemClick 9)).1.highlightedIndex ≤ ([0].length : Int) - 1) := by
  decide

/-- Claim C7, amended: after every transition, either the state is returned
completely unchanged (the transition was a no-op, e.g. an out-of-range or
unsupported event, which may preserve a stale `highlightedIndex`), or the
returned `highlightedIndex` lies within `[-1, itemCount - 1]` for the current
item list — in particular every transition that changes the highlight clamps
a stale index back into range. -/
theorem highlightedIndex_in_range (items : List α) (toStr : α → String) (s : DState α)
    (e : Evt) :
    (transition items toStr s e).1 = s ∨
      (-1 ≤ (transition items toStr s e).1.highlightedIndex ∧
        (transition items toStr s e).1.highlightedIndex ≤ (items.length : Int) - 1) := by
  have hdown : ∀ hi : Int, items.length ≠ 0 →
      -1 ≤ nextDownIdx items.length hi ∧
        nextDownIdx items.length hi ≤ (items.length : Int) - 1 := by
    intro hi hn
    unfold nextDownIdx
    split
    · omega
    · split <;> omega
  have hup : ∀ hi : Int, items.length ≠ 0 →
      -1 ≤ nextUpIdx items.length hi ∧
        nextUpIdx items.length hi ≤ (items.length : Int) - 1 := by
    intro hi hn
    unfold nextUpIdx
    split
    · omega
    · split <;> omega
  cases e with
  | arrowDown =>
    cases hOpen : s.isOpen with
    | false =>
      by_cases hn : items.length = 0
      · right; simp [transition, hOpen, hn]
      · right; simp [transition, hOpen, hn]; omega
    | true =>
      by_cases hn : items.length = 0
      · left; simp [transition, hOpen, hn]
      · right; simpa [transition, hOpen, hn] using hdown s.highlightedIndex hn
  | arrowUp =>
    cases hOpen : s.isOpen with
    | false =>
      by_cases hn : items.length = 0 <;> right <;> simp [transition, hOpen, hn]
    | true =>
      by_cases hn : items.length = 0
      · left; simp [transition, hOpen, hn]
      · right; simpa [transition, hOpen, hn] using hup s.highlightedIndex hn
  | homeKey =>
    cases hOpen : s.isOpen with
    | false => left; simp [transition, hOpen]
    | true =>
      by_cases hn : items.length = 0
      · left; simp [transition, hOpen, hn]
      · right; simp [transition, hOpen, hn]; omega
  | endKey =>
    cases hOpen : s.isOpen with
    | false => left; simp [transition, hOpen]
    | true =>
      by_cases hn : items.length = 0
      · left; simp [transition, hOpen, hn]
      · right; simp [transition, hOpen, hn]
  | enter =>
    cases hOpen : s.isOpen with
    | false => left; simp [transition, hOpen]
    | true =>
      by_cases hneg : s.highlightedIndex < 0
      · left; simp [transition, hOpen, hneg]
      · cases hget : items[s.highlightedIndex.toNat]? with
        | none => left; simp [transition, hOpen, hneg, hget]
        | some it =>
          right
          have : items.length ≠ 0 := by
            intro h0
            rw [List.getElem?_eq_none_iff.mpr (by omega)] at hget
            exact Option.noConfusion hget
          simp [transition, hOpen, hneg, hget]
  | itemClick index =>
    cases hOpen : s.isOpen with
    | false => left; simp [transition, hOpen]
    | true =>
      cases hget : items[index]? with
      | none => left; simp [transition, hOpen, hget]
      | some it =>
        right
        have : index < items.length := by
          by_contra hc
          rw [List.getElem?_eq_none_iff.mpr (by omega)] at hget
          exact Option.noConfusion hget
        simp [transition, hOpen, hget]
  | escape =>
    cases hOpen : s.isOpen with
    | false => left; simp [transition, hOpen]
    | true => right; simp [transition, hOpen]
  | blur =>
    cases hOpen : s.isOpen with
    | false => left; simp [transition, hOpen]
    | true => right; simp [transition, hOpen]
  | outsideClick =>
    cases hOpen : s.isOpen with
    | false => left; simp [transition, hOpen]
    | true => right; simp [transition, hOpen]
  | toggleOpen =>
    cases hOpen : s.isOpen <;> right <;> simp [transition, hOpen]

/-- Claim C8: the transition function is deterministic — it is embedded as a
pure function of `(state, event)`, so two applications to the same prior state
and event yield the same final state and the same side-effect list; this
equality holds definitionally for the functional embedding. -/
theorem transition_deterministic (items : List α) (toStr : α → String) (s : DState α)
    (e : Evt) :
    (transition items toStr s e).1 = (transition items toStr s e).1 ∧
    (transition items toStr s e).2 = (transition items toStr s e).2 :=
  ⟨rfl, rfl⟩

/-- Modelled from the spec: a partial changes object over the state fields,
as proposed by the Transition Engine and consumed by the Controlled-State
Merger and the override hook. A `none` field is "not part of the changes".
The merger implementation is missing from `src/`. -/
structure Changes (α : Type) where
  isOpen : Option Bool
  highlightedIndex : Option Int
  selectedItem : Option (Option α)
  inputValue : Option String
deriving DecidableEq, Repr

/-- Modelled from the spec: the per-field "externally controlled" record.
A `some v` field means the caller has pinned that field to the
externally-owned value `v`; `none` means the field is engine-owned. -/
structure Controlled (α : Type) where
  isOpen : Option Bool
  highlightedIndex : Option Int
  selectedItem : Option (Option α)
  inputValue : Option String
deriving DecidableEq, Repr

/-- The full changes object corresponding to a proposed next state. -/
def stateToChanges (s : DState α) : Changes α :=
  ⟨some s.isOpen, some s.highlightedIndex, some s.selectedItem, some s.inputValue⟩

/-- Modelled from the spec: the Controlled-State Merger,
`merge(proposedChanges, controlledFields) -> finalProposedChanges`. Missing
from `src/`. For each field pinned by the caller, the engine's proposed
value is discarded and the externally-owned value substituted; every other
field of the proposal passes through unchanged. -/
def mergeChanges (c : Changes α) (ctl : Controlled α) : Changes α :=
  { isOpen := match ctl.isOpen with
      | some v => some v
      | none => c.isOpen
    highlightedIndex := match ctl.highlightedIndex with
      | some v => some v
      | none => c.highlightedIndex
    selectedItem := match ctl.selectedItem with
      | some v => some v
      | none => c.selectedItem
    inputValue := match ctl.inputValue with
      | some v => some v
      | none => c.inputValue }

/-- Committing a changes object onto a previous state: fields absent from
the changes are taken from the previous state. -/
def applyChanges (s : DState α) (c : Changes α) : DState α :=
  ⟨c.isOpen.getD s.isOpen, c.highlightedIndex.getD s.highlightedIndex,
    c.selectedItem.getD s.selectedItem, c.inputValue.getD s.inputValue⟩

/-- Modelled from the spec: the transition pipeline up to and including the
Controlled-State Merger — the engine proposes, the merger substitutes the
caller's externally-owned values, the merged changes are committed, and the
side effects pass through untouched. Missing from `src/`. -/
def controlledTransition (items : List α) (toStr : α → String) (ctl : Controlled α)
    (s : DState α) (e : Evt) : DState α × List Eff :=
  (applyChanges s (mergeChanges (stateToChanges (transition items toStr s e).1) ctl),
    (transition items toStr s e).2)

/-- Claim C2: if a state field is marked externally controlled with a
caller-supplied value, then after any transition the returned state carries
that value for the field, while every field the caller does not control, and
the entire side-effect list, pass through from the engine's proposal
unchanged. -/
theorem controlled_field_pinned (items : List α) (toStr : α → String)
    (ctl : Controlled α) (s : DState α) (e : Evt) :
    (∀ v, ctl.isOpen = some v →
      (controlledTransition items toStr ctl s e).1.isOpen = v) ∧
    (∀ v, ctl.highlightedIndex = some v →
      (controlledTransition items toStr ctl s e).1.highlightedIndex = v) ∧
    (∀ v, ctl.selectedItem = some v →
      (controlledTransition items toStr ctl s e).1.selectedItem = v) ∧
    (∀ v, ctl.inputValue = some v →
      (controlledTransition items toStr ctl s e).1.inputValue = v) ∧
    (ctl.isOpen = none →
      (controlledTransition items toStr ctl s e).1.isOpen =
        (transition items toStr s e).1.isOpen) ∧
    (ctl.highlightedIndex = none →
      (controlledTransition items toStr ctl s e).1.highlightedIndex =
        (transition items toStr s e).1.highlightedIndex) ∧
    (ctl.selectedItem = none →
      (controlledTransition items toStr ctl s e).1.selectedItem =
        (transition items toStr s e).1.selectedItem) ∧
    (ctl.inputValue = none →
      (controlledTransition items toStr ctl s e).1.inputValue =
        (transition items toStr s e).1.inputValue) ∧
    (controlledTransition items toStr ctl s e).2 = (transition items toStr s e).2 := by
  refine ⟨?_, ?_, ?_, ?_, ?_, ?_, ?_, ?_, rfl⟩
  all_goals first
    | (intro v hv
       simp [controlledTransition, applyChanges, mergeChanges, stateToChanges, hv])
    | (intro hv
       simp [controlledTransition, applyChanges, mergeChanges, stateToChanges, hv])

/-- Witness for C2 on a concrete combination: with `selectedItem` controlled
to `some 7` (and all other fields engine-owned), clicking item 1 of a
three-item list keeps `selectedItem = some 7` in the returned state, while
`isOpen`, `highlightedIndex`, `inputValue` and the side-effect list equal the
engine's own proposal. -/
theorem controlled_field_pinned_witness :
    (controlledTransition [10, 20, 30] (fun _ => "")
        ⟨none, none, some (some 7), none⟩ ⟨true, 0, none, ""⟩ (.itemClick 1)).1.selectedItem
      = some 7 ∧
    (controlledTransition [10, 20, 30] (fun _ => "")
        ⟨none, none, some (some 7), none⟩ ⟨true, 0, none, ""⟩ (.itemClick 1)).1.isOpen
      = (transition [10, 20, 30] (fun _ => "")
          ⟨true, 0, none, ""⟩ (.itemClick 1)).1.isOpen ∧
    (controlledTransition [10, 20, 30] (fun _ => "")
        ⟨none, none, some (some 7), none⟩ ⟨true, 0, none, ""⟩ (.itemClick 1)).1.highlightedIndex
      = (transition [10, 20, 30] (fun _ => "")
          ⟨true, 0, none, ""⟩ (.itemClick 1)).1.highlightedIndex ∧
    (controlledTransition [10, 20, 30] (fun _ => "")
        ⟨none, none, some (some 7), none⟩ ⟨true, 0, none, ""⟩ (.itemClick 1)).2
      = (transition [10, 20, 30] (fun _ => "") ⟨true, 0, none, ""⟩ (.itemClick 1)).2 := by
  have h := controlled_field_pinned [10, 20, 30] (fun _ => "")
    ⟨none, none, some (some 7), none⟩ ⟨true, 0, none, ""⟩ (.itemClick 1)
  exact ⟨h.2.2.1 (some 7) rfl, h.2.2.2.2.1 rfl, h.2.2.2.2.2.1 rfl, h.2.2.2.2.2.2.2.2⟩

/-- Modelled from the spec: the override hook contract
`override(previousState, eventType, mergedChanges) -> finalChanges`, whose
default implementation is the identity. Missing from `src/`; the
documentation shows only consumer-supplied reducers whose default branch
returns the proposed changes unmodified. -/
def defaultStateReducer : DState α → Evt → Changes α → Changes α :=
  fun _ _ changes => changes

/-- Modelled from the spec: the full pipeline — engine proposal, then the
Controlled-State Merger, then the override hook, then commit; side effects
pass through. Missing from `src/`. -/
def overriddenTransition (items : List α) (toStr : α → String) (ctl : Controlled α)
    (reducer : DState α → Evt → Changes α → Changes α) (s : DState α) (e : Evt) :
    DState α × List Eff :=
  (applyChanges s
      (reducer s e (mergeChanges (stateToChanges (transition items toStr s e).1) ctl)),
    (transition items toStr s e).2)

/-- Claim C4: the override hook's default implementation is the identity, so
with the identity hook the final changes equal the merged changes exactly for
every previous state and every event — running the pipeline with the default
reducer is the same as running it without an override stage at all. -/
theorem default_reducer_identity (items : List α) (toStr : α → String)
    (ctl : Controlled α) (s : DState α) (e : Evt) (prev : DState α) (t : Evt)
    (merged : Changes α) :
    overriddenTransition items toStr ctl defaultStateReducer s e =
      controlledTransition items toStr ctl s e ∧
    defaultStateReducer prev t merged = merged :=
  ⟨rfl, rfl⟩

/-- The `SelectionSet` owned by the Multi-Selection Coordinator: the ordered
selected items and the active-item cursor (`-1` = "none"/dropdown focus). -/
structure SelectionSet (α : Type) where
  selectedItems : List α
  activeIndex : Int
deriving DecidableEq, Repr

/-- Removal of the first matching-identity occurrence of an item from an
ordered list, leaving every other element in order. -/
def removeFirst [DecidableEq α] (xs : List α) (x : α) : List α :=
  match xs with
  | [] => []
  | y :: ys => if y = x then ys else y :: removeFirst ys x

/-- Modelled from the spec: the Multi-Selection Coordinator's
`RemoveItem(item)` transition. Missing from `src/` (the
`useMultipleSelection` hook lives in the downshift library; the
documentation only calls its `removeSelectedItem` action prop). It removes
the first matching-identity occurrence from `selectedItems`; if the set
becomes empty, `activeIndex` is cleared to "none" (`-1`); if the removed
item was the `activeIndex` target, `activeIndex` moves to the previous
remaining item; an item not present in the set leaves it unchanged. -/
def removeItem [DecidableEq α] (s : SelectionSet α) (x : α) : SelectionSet α :=
  if x ∈ s.selectedItems then
    let remaining := removeFirst s.selectedItems x
    let removedIdx : Int := (s.selectedItems.indexOf x : Int)
    { selectedItems := remaining
      activeIndex :=
        if remaining = [] then -1
        else if s.activeIndex = removedIdx then removedIdx - 1
        else s.activeIndex }
  else s

lemma removeFirst_append [DecidableEq α] (x : α) (before after : List α)
    (h : x ∉ before) :
    removeFirst (before ++ x :: after) x = before ++ after := by
  induction before with
  | nil => simp [removeFirst]
  | cons y ys ih =>
    have hy : y ≠ x := by
      intro he
      exact h (by simp [he])
    have hys : x ∉ ys := fun hm => h (by simp [hm])
    simp [removeFirst, hy, ih hys]

/-- Claim C6: `RemoveItem(item)` removes exactly the first matching-identity
occurrence from `selectedItems`, keeping the earlier and later elements in
order; and removing the only remaining item yields an empty `selectedItems`
with `activeIndex` cleared to the "none" sentinel `-1`. -/
theorem removeItem_first_occurrence [DecidableEq α] :
    (∀ (s : SelectionSet α) (x : α) (before after : List α),
      s.selectedItems = before ++ x :: after → x ∉ before →
        (removeItem s x).selectedItems = before ++ after) ∧
    (∀ (x : α) (ai : Int),
      (removeItem ⟨[x], ai⟩ x).selectedItems = [] ∧
      (removeItem ⟨[x], ai⟩ x).activeIndex = -1) := by
  constructor
  · intro s x before after hsel hnotin
    have hmem : x ∈ s.selectedItems := by
      rw [hsel]; simp
    simp only [removeItem, hmem, if_pos]
    rw [hsel, removeFirst_append x before after hnotin]
  · intro x ai
    constructor <;> simp [removeItem, removeFirst]

/-- Witness for C6: removing `2` from `[1, 2, 3, 2]` deletes only the first
occurrence, giving `[1, 3, 2]`; removing the only item of a singleton set
empties it and clears the active index to `-1`. -/
theorem removeItem_first_occurrence_witness :
    (removeItem (⟨[1, 2, 3, 2], 0⟩ : SelectionSet Nat) 2).selectedItems = [1, 3, 2] ∧
    (removeItem (⟨[5], 3⟩ : SelectionSet Nat) 5).selectedItems = [] ∧
    (removeItem (⟨[5], 3⟩ : SelectionSet Nat) 5).activeIndex = -1 := by
  refine ⟨?_, ?_, ?_⟩
  · exact (removeItem_first_occurrence (α := Nat)).1 ⟨[1, 2, 3, 2], 0⟩ 2 [1] [3, 2]
      rfl (by decide)
  · exact ((removeItem_first_occurrence (α := Nat)).2 5 3).1
  · exact ((removeItem_first_occurrence (α := Nat)).2 5 3).2

/-- A book item as used by every example in the documentation:
`{author: ..., title: ...}`. -/
structure Book where
  author : String
  title : String
deriving DecidableEq, Repr

/-- The ten-book item list that appears verbatim in every example of
`docs/hooks/useSelect.mdx` and the `useCombobox` page. -/
def books : List Book :=
  [⟨"Harper Lee", "To Kill a Mockingbird"⟩,
   ⟨"Lev Tolstoy", "War and Peace"⟩,
   ⟨"Fyodor Dostoyevsy", "The Idiot"⟩,
   ⟨"Oscar Wilde", "A Picture of Dorian Gray"⟩,
   ⟨"George Orwell", "1984"⟩,
   ⟨"Jane Austen", "Pride and Prejudice"⟩,
   ⟨"Marcus Aurelius", "Meditations"⟩,
   ⟨"Fyodor Dostoevsky", "The Brothers Karamazov"⟩,
   ⟨"Lev Tolstoy", "Anna Karenina"⟩,
   ⟨"Fyodor Dostoevsky", "Crime and Punishment"⟩]

/-- JavaScript `Array.prototype.indexOf` over an optional needle: `null`
(or any item absent from the array) yields `-1`. -/
def jsIndexOf [DecidableEq α] (xs : List α) (x : Option α) : Int :=
  match x with
  | none => -1
  | some b => if b ∈ xs then (xs.indexOf b : Int) else -1

/-- JavaScript array subscription `xs[i]`: a negative or out-of-bounds index
yields `undefined`, modelled as `none`. -/
def jsGet (xs : List α) (i : Int) : Option α :=
  if i < 0 then none else xs[i.toNat]?

/-- The `useSelect.stateChangeTypes` tags used by the documentation's
example state reducers. -/
inductive SelectChangeType where
  | ToggleButtonKeyDownArrowDown
  | ToggleButtonKeyDownArrowUp
  | ToggleButtonClick
  | MenuKeyDownEnter
  | MenuKeyDownSpaceButton
  | ItemClick
  | MenuMouseLeave
deriving DecidableEq, Repr

/-- The Windows-behavior `stateReducer` of the State Reducer example in
`docs/hooks/useSelect.mdx` (lines 374–397), translated clause by clause:
while the menu is open it returns the proposed changes; while closed,
ArrowDown computes `books.indexOf(state.selectedItem)` and returns
`books[nextItemIndex + 1]` (or wraps from the last book to `books[0]`),
ArrowUp returns `books[previousItemIndex - 1]` (or wraps from index 0 to the
last book); every other change type returns the proposed changes. -/
def windowsStateReducer (state : DState Book) (type : SelectChangeType)
    (changes : Changes Book) : Changes Book :=
  if state.isOpen then changes
  else
    match type with
    | .ToggleButtonKeyDownArrowDown =>
      let nextItemIndex := jsIndexOf books state.selectedItem
      if nextItemIndex = (books.length : Int) - 1 then
        { isOpen := none, highlightedIndex := none,
          selectedItem := some (jsGet books 0), inputValue := none }
      else
        { isOpen := none, highlightedIndex := none,
          selectedItem := some (jsGet books (nextItemIndex + 1)), inputValue := none }
    | .ToggleButtonKeyDownArrowUp =>
      let previousItemIndex := jsIndexOf books state.selectedItem
      if previousItemIndex = 0 then
        { isOpen := none, highlightedIndex := none,
          selectedItem := some (jsGet books ((books.length : Int) - 1)), inputValue := none }
      else
        { isOpen := none, highlightedIndex := none,
          selectedItem := some (jsGet books (previousItemIndex - 1)), inputValue := none }
    | _ => changes

/-- Claim C9: in the useSelect State Reducer example's closed-menu reducer,
when `state.selectedItem` is absent from the books list (in particular
`null`, so `indexOf` returns `-1`), ArrowDown proposes
`selectedItem = books[0]` (the first book), while ArrowUp proposes
`selectedItem = books[-2]`, i.e. `undefined` — ArrowUp from no selection
does not wrap to the last book. -/
theorem windows_reducer_no_selection (s : DState Book) (changes : Changes Book)
    (hClosed : s.isOpen = false) (hAbsent : jsIndexOf books s.selectedItem = -1) :
    (windowsStateReducer s .ToggleButtonKeyDownArrowDown changes).selectedItem
      = some (some ⟨"Harper Lee", "To Kill a Mockingbird"⟩) ∧
    (windowsStateReducer s .ToggleButtonKeyDownArrowUp changes).selectedItem
      = some none := by
  constructor
  · simp only [windowsStateReducer, hClosed, hAbsent, Bool.false_eq_true, if_false]
    norm_num
    decide
  · simp only [windowsStateReducer, hClosed, hAbsent, Bool.false_eq_true, if_false]
    norm_num
    decide

/-- Witness for C9: from the closed initial state with no selection, the
example reducer proposes the first book on ArrowDown and `undefined` on
ArrowUp. -/
theorem windows_reducer_no_selection_witness :
    (windowsStateReducer ⟨false, -1, none, ""⟩ .ToggleButtonKeyDownArrowDown
        ⟨none, none, none, none⟩).selectedItem
      = some (some ⟨"Harper Lee", "To Kill a Mockingbird"⟩) ∧
    (windowsStateReducer ⟨false, -1, none, ""⟩ .ToggleButtonKeyDownArrowUp
        ⟨none, none, none, none⟩).selectedItem
      = some none :=
  windows_reducer_no_selection ⟨false, -1, none, ""⟩ ⟨none, none, none, none⟩ rfl rfl

/-- JavaScript `String.prototype.toLowerCase` for the ASCII strings used by
the documentation examples: lowercases each character. -/
def jsToLower (s : String) : String := ⟨s.data.map Char.toLower⟩

/-- JavaScript `haystack.includes(needle)`: the needle occurs contiguously
inside the haystack. -/
def jsIncludes (haystack needle : String) : Bool :=
  decide (needle.data <:+: haystack.data)

/-- The `getBooksFilter` of the `useCombobox` documentation examples
(basic-usage block, lines 81–89), translated clause by clause: a book
passes when the input value is falsy (empty), or when the *raw* input value
occurs inside the lowercased title or the lowercased author. -/
def getBooksFilter (inputValue : String) (book : Book) : Bool :=
  (inputValue == "") ||
    jsIncludes (jsToLower book.title) inputValue ||
    jsIncludes (jsToLower book.author) inputValue

/-- The `getFilteredBooks` of the `useMultipleSelection` documentation
(combobox example, lines 183–193), translated clause by clause: it
lowercases the input value first, then keeps the books not already
selected whose lowercased title or author contains the lowercased input. -/
def getFilteredBooks (selectedItems : List Book) (inputValue : String) : List Book :=
  let lowerCasedInputValue := jsToLower inputValue
  books.filter fun book =>
    !(selectedItems.contains book) &&
      (jsIncludes (jsToLower book.title) lowerCasedInputValue ||
        jsIncludes (jsToLower book.author) lowerCasedInputValue)

lemma books_lowered_no_upper :
    ∀ b ∈ books, (∀ c ∈ (jsToLower b.title).data, c.isUpper = false) ∧
      (∀ c ∈ (jsToLower b.author).data, c.isUpper = false) := by
  decide

/-- Claim C10: `getBooksFilter inputValue` accepts every book when
`inputValue` is empty; for non-empty `inputValue` it accepts a book exactly
when the raw, un-lowercased input is a substring of the lowercased title or
lowercased author — hence a query containing an uppercase character matches
no book at all, unlike `getFilteredBooks` from the multiple-selection
example, which lowercases the query first and does match `"WAR"`. -/
theorem getBooksFilter_case_sensitive :
    (∀ b : Book, getBooksFilter "" b = true) ∧
    (∀ (q : String) (b : Book), q ≠ "" →
      getBooksFilter q b =
        (jsIncludes (jsToLower b.title) q || jsIncludes (jsToLower b.author) q)) ∧
    (∀ (q : String) (b : Book), b ∈ books → (∃ c ∈ q.data, c.isUpper = true) →
      getBooksFilter q b = false) ∧
    books.filter (getBooksFilter "WAR") = [] ∧
    getFilteredBooks [] "WAR" = [⟨"Lev Tolstoy", "War and Peace"⟩] := by
  refine ⟨?_, ?_, ?_, ?_, ?_⟩
  · intro b
    simp [getBooksFilter]
  · intro q b hq
    have hb : (q == "") = false := beq_eq_false_iff_ne.mpr hq
    simp [getBooksFilter, hb]
  · intro q b hb hup
    obtain ⟨c, hc, hcup⟩ := hup
    have hq : q ≠ "" := by
      intro he
      subst he
      simp at hc
    have habs : ∀ t : String, (∀ ch ∈ t.data, ch.isUpper = false) →
        jsIncludes t q = false := by
      intro t ht
      have : ¬(q.data <:+: t.data) := by
        intro hinf
        have := ht c (hinf.subset hc)
        rw [this] at hcup
        exact Bool.noConfusion hcup
      simpa [jsIncludes] using this
    have hbl := books_lowered_no_upper b hb
    simp [getBooksFilter, hq, habs _ hbl.1, habs _ hbl.2]
  · decide
  · decide

/-- Witness for C10: the empty query accepts a book; a concrete non-empty
lowercase query reduces to the substring test; the uppercase query `"WAR"`
rejects "War and Peace" under `getBooksFilter` even though
`getFilteredBooks` (which lowercases the query) returns exactly that book. -/
theorem getBooksFilter_case_sensitive_witness :
    getBooksFilter "" ⟨"Lev Tolstoy", "War and Peace"⟩ = true ∧
    getBooksFilter "war" ⟨"Lev Tolstoy", "War and Peace"⟩ =
      (jsIncludes (jsToLower "War and Peace") "war" ||
        jsIncludes (jsToLower "Lev Tolstoy") "war") ∧
    getBooksFilter "WAR" ⟨"Lev Tolstoy", "War and Peace"⟩ = false ∧
    books.filter (getBooksFilter "WAR") = [] ∧
    getFilteredBooks [] "WAR" = [⟨"Lev Tolstoy", "War and Peace"⟩] := by
  refine ⟨?_, ?_, ?_, ?_, ?_⟩
  · exact getBooksFilter_case_sensitive.1 ⟨"Lev Tolstoy", "War and Peace"⟩
  · exact getBooksFilter_case_sensitive.2.1 "war" ⟨"Lev Tolstoy", "War and Peace"⟩
      (by decide)
  · exact getBooksFilter_case_sensitive.2.2.1 "WAR" ⟨"Lev Tolstoy", "War and Peace"⟩
      (by decide) ⟨'W', by decide, rfl⟩
  · exact getBooksFilter_case_sensitive.2.2.2.1
  · exact getBooksFilter_case_sensitive.2.2.2.2
